import Mathlib

/-!
Verification of the rolling logger (`log.go`, package `rollinglogger`).

The Go code is a size-based rotating log writer.  We give a shallow
embedding: the writer state (`Logger`) mirrors the Go struct, the file
system visible to the writer is modelled by `FS` (the contents of the
active file at the logger's path plus the list of archives produced by
rotation), and every fallible system call is driven by an explicit
`Faults` record saying which call fails.  Byte buffers are `List Nat`.
Compression is treated as a lossless encoding, so an archive is recorded
by the uncompressed bytes it encodes.  `composeFile` additionally emits
the trace of file-system events it performs, so ordering properties of
the seal step can be stated.
-/

namespace RollingLogger

/-- Constants from the Go source. -/
def defaultMaxSize : Nat := 100

def megabyte : Nat := 1024 * 1024

/-- Archive filename suffix, `ext = ".gz"` in the source. -/
def gzExt : String := ".gz"

/-- The Go `Logger` struct.  `fd *os.File` is modelled by the flag
`fdOpen` (the handle always points at the file at `Filename`);
`size` is the running byte count. -/
structure Logger where
  Filename : String
  MaxSize : Nat
  size : Nat
  fdOpen : Bool
  deriving Repr, DecidableEq

/-- `func (l *Logger) max() int`. -/
def Logger.max (l : Logger) : Nat :=
  if l.MaxSize = 0 then defaultMaxSize * megabyte
  else l.MaxSize * megabyte

/-- The file system as the writer sees it: the contents of the file at
`l.Filename` (`none` when no such file exists) and the archives created
by rotation, newest first, each recorded as (name, bytes it encodes). -/
structure FS where
  active : Option (List Nat)
  archives : List (String × List Nat)
  deriving Repr, DecidableEq

/-- Combined state: the writer plus the file system. -/
structure St where
  lg : Logger
  fs : FS
  deriving Repr, DecidableEq

/-- Fault model: one flag per fallible system call in the source.
A `true` flag makes that call fail when it is reached. -/
structure Faults where
  statF : Bool := false
  openAppendF : Bool := false
  closeF : Bool := false
  createF : Bool := false
  srcOpenF : Bool := false
  srcStatF : Bool := false
  dstOpenF : Bool := false
  copyF : Bool := false
  gzCloseF : Bool := false
  removeF : Bool := false
  writeF : Bool := false
  deriving Repr, DecidableEq

/-- The fault assignment where every system call succeeds. -/
def noFaults : Faults := {}

/-! ### Archive names

`getBackupFileName` builds
`filepath.Join(dir, fmt.Sprintf("%s-%d-%s%s", t.Format(timeFormat), t.Nanosecond(), base, ext))`.
We model `time.Time` by its broken-down fields and render the format
string `"2006-01-02-15-04-05"` (zero-padded fields) and the `%d`
nanosecond verbatim. -/

/-- A wall-clock instant as Go's format sees it: broken-down fields
plus the nanosecond within the second. -/
structure GoTime where
  year : Nat
  month : Nat
  day : Nat
  hour : Nat
  minute : Nat
  second : Nat
  nano : Nat
  deriving Repr, DecidableEq

/-- Field bounds under which the format `"2006-01-02-15-04-05"` renders
each field at its fixed width. -/
def GoTime.Valid (t : GoTime) : Prop :=
  t.year < 10000 ∧ t.month < 100 ∧ t.day < 100 ∧ t.hour < 100 ∧
    t.minute < 100 ∧ t.second < 100

instance (t : GoTime) : Decidable t.Valid := by
  unfold GoTime.Valid; infer_instance

/-- Chronological order on instants (lexicographic on the fields). -/
def GoTime.before (a b : GoTime) : Bool :=
  if a.year ≠ b.year then a.year < b.year
  else if a.month ≠ b.month then a.month < b.month
  else if a.day ≠ b.day then a.day < b.day
  else if a.hour ≠ b.hour then a.hour < b.hour
  else if a.minute ≠ b.minute then a.minute < b.minute
  else if a.second ≠ b.second then a.second < b.second
  else a.nano < b.nano

/-- The decimal digit character for `d % 10`, as `fmt` prints it. -/
def digitChar (d : Nat) : Char :=
  match d % 10 with
  | 0 => '0' | 1 => '1' | 2 => '2' | 3 => '3' | 4 => '4'
  | 5 => '5' | 6 => '6' | 7 => '7' | 8 => '8' | _ => '9'

/-- A field rendered at width 2 with zero padding (Go format `"05"`). -/
def pad2 (n : Nat) : List Char :=
  [digitChar (n / 10), digitChar n]

/-- A field rendered at width 4 with zero padding (Go format `"2006"`). -/
def pad4 (n : Nat) : List Char :=
  [digitChar (n / 1000), digitChar (n / 100), digitChar (n / 10), digitChar n]

/-- `t.Format("2006-01-02-15-04-05")` as a character list. -/
def fmtTimeL (t : GoTime) : List Char :=
  pad4 t.year ++ '-' :: pad2 t.month ++ '-' :: pad2 t.day ++
    '-' :: pad2 t.hour ++ '-' :: pad2 t.minute ++ '-' :: pad2 t.second

/-- Decimal rendering of `n` (Go's `%d`), most significant digit first,
with structural fuel so that it evaluates in the kernel. -/
def decDigitsAux : Nat → Nat → List Char
  | 0, _ => []
  | fuel + 1, n =>
    if n < 10 then [digitChar n]
    else decDigitsAux fuel (n / 10) ++ [digitChar n]

/-- Decimal rendering of `n` (Go's `%d`). -/
def decDigits (n : Nat) : List Char := decDigitsAux (n + 1) n

/-- Numeric value of a digit string, used to invert `decDigits`. -/
def decVal (l : List Char) : Nat :=
  l.foldl (fun a c => a * 10 + (c.toNat - 48)) 0

/-- `filepath.Base`: the part of the path after the last slash.
(Simplified model of the Go library function: faithful for cleaned
paths that do not end in a slash.) -/
def baseOf (s : String) : String :=
  ⟨(s.data.reverse.takeWhile (· ≠ '/')).reverse⟩

/-- `filepath.Dir`: the part of the path before the last slash.
(Simplified model of the Go library function: faithful for cleaned
absolute paths containing a slash.) -/
def dirOf (s : String) : String :=
  ⟨((s.data.reverse.dropWhile (· ≠ '/')).drop 1).reverse⟩

/-- `func (l *Logger) getBackupFileName() string`, with the rotation
instant passed explicitly.  `filepath.Join` is modelled as
`dir ++ "/" ++ name` (faithful for cleaned absolute directories). -/
def getBackupFileName (l : Logger) (t : GoTime) : String :=
  dirOf l.Filename ++ "/" ++
    (⟨fmtTimeL t⟩ : String) ++ "-" ++ (⟨decDigits t.nano⟩ : String) ++ "-" ++
    baseOf l.Filename ++ gzExt

/-! ### The state machine -/

/-- File-system events performed by `composeFile`, in order:
opening and stat-ing the retiring file, creating the archive file,
streaming the compressed copy, flushing the compressor trailer
(`gz.Close`), removing the original (`os.Remove`), and the deferred
closes of the archive file (`gzf.Close`) and the source file
(`file.Close`). -/
inductive Ev where
  | openSrc | statSrc | openDst | copyData | gzClose | removeSrc
  | closeDst | closeSrc
  deriving Repr, DecidableEq, BEq

/-- `func (l *Logger) close() error`.  Note the Go code sets
`l.fd = nil` even when `Close` returns an error. -/
def close (st : St) (f : Faults) : St × Bool :=
  if st.lg.fdOpen then
    ({ st with lg := { st.lg with fdOpen := false } }, f.closeF)
  else
    (st, false)

/-- `func (l *Logger) openNewFile() error`: create/truncate the file at
the logger's path and adopt it with size 0. -/
def openNewFile (st : St) (f : Faults) : St × Bool :=
  if f.createF then (st, true)
  else
    ({ lg := { st.lg with fdOpen := true, size := 0 },
       fs := { st.fs with active := some [] } }, false)

/-- `func (l *Logger) composeFile() error`: seal the retiring file into
a compressed archive, then remove the original.  Returns the resulting
state, the error flag, and the trace of file-system events performed
(deferred closes included, at the position where Go runs them).
A missing source file makes the initial `os.Open` fail. -/
def composeFile (st : St) (f : Faults) (t : GoTime) :
    (St × Bool) × List Ev :=
  match st.fs.active with
  | none => ((st, true), [.openSrc])
  | some data =>
    if f.srcOpenF then ((st, true), [.openSrc])
    else if f.srcStatF then ((st, true), [.openSrc, .statSrc, .closeSrc])
    else
      let nm := getBackupFileName st.lg t
      if f.dstOpenF then
        ((st, true), [.openSrc, .statSrc, .openDst, .closeSrc])
      else if f.copyF then
        (({ st with fs := { st.fs with archives := (nm, []) :: st.fs.archives } }, true),
         [.openSrc, .statSrc, .openDst, .copyData, .closeDst, .closeSrc])
      else if f.gzCloseF then
        (({ st with fs := { st.fs with archives := (nm, []) :: st.fs.archives } }, true),
         [.openSrc, .statSrc, .openDst, .copyData, .gzClose, .closeDst, .closeSrc])
      else if f.removeF then
        (({ st with fs := { st.fs with archives := (nm, data) :: st.fs.archives } }, true),
         [.openSrc, .statSrc, .openDst, .copyData, .gzClose, .removeSrc, .closeDst, .closeSrc])
      else
        (({ st with fs := { active := none, archives := (nm, data) :: st.fs.archives } }, false),
         [.openSrc, .statSrc, .openDst, .copyData, .gzClose, .removeSrc, .closeDst, .closeSrc])

/-- `func (l *Logger) makeNewFile() error`: close, seal, reopen. -/
def makeNewFile (st : St) (f : Faults) (t : GoTime) : St × Bool :=
  let r1 := close st f
  if r1.2 then (r1.1, true)
  else
    let r2 := (composeFile r1.1 f t).1
    if r2.2 then (r2.1, true)
    else openNewFile r2.1 f

/-- `func (l *Logger) openFile(curlen int) error`: stat the path; create
a fresh file when none exists; rotate immediately when the on-disk size
plus the pending write reaches the limit; otherwise open for append and
adopt the on-disk size. -/
def openFile (st : St) (f : Faults) (t : GoTime) (curlen : Nat) : St × Bool :=
  match st.fs.active with
  | none => openNewFile st f
  | some data =>
    if f.statF then (st, true)
    else if st.lg.max ≤ data.length + curlen then makeNewFile st f t
    else if f.openAppendF then (st, true)
    else
      ({ lg := { st.lg with fdOpen := true, size := data.length }, fs := st.fs }, false)

/-- Result of a `Write` call: the returned byte count, the error flag,
and the final state. -/
structure WriteResult where
  n : Nat
  err : Bool
  st : St
  deriving Repr, DecidableEq

/-- Append `p` to the active file. -/
def appendActive (fs : FS) (p : List Nat) : FS :=
  { fs with active := some (fs.active.getD [] ++ p) }

/-- The tail of `Write` once a file handle is held (source lines 42-54):
rotate when `l.size+cursize > l.max()`, then append and update `l.size`. -/
def writeBody (st1 : St) (f : Faults) (t : GoTime) (p : List Nat) : WriteResult :=
  let cursize := p.length
  let r2 := if st1.lg.max < st1.lg.size + cursize then makeNewFile st1 f t
            else (st1, false)
  if r2.2 then ⟨0, true, r2.1⟩
  else
    let st2 := r2.1
    if f.writeF then ⟨0, true, st2⟩
    else
      ⟨cursize, false,
       { lg := { st2.lg with size := st2.lg.size + cursize },
         fs := appendActive st2.fs p }⟩

/-- `func (l *Logger) Write(p []byte) (n int, err error)`.  The rotation
instant `t` (used for the archive name) is passed explicitly; the mutex
is not modelled (all calls are serialized). -/
def Write (st : St) (f : Faults) (t : GoTime) (p : List Nat) : WriteResult :=
  let cursize := p.length
  if st.lg.max < cursize then ⟨0, true, st⟩
  else
    let r1 := if st.lg.fdOpen then (st, false) else openFile st f t cursize
    if r1.2 then ⟨0, true, r1.1⟩
    else writeBody r1.1 f t p

/-- The writer's size bookkeeping matches the file on disk whenever a
handle is open. -/
def consistent (st : St) : Prop :=
  st.lg.fdOpen = true → ∃ d, st.fs.active = some d ∧ d.length = st.lg.size

instance (st : St) : Decidable (consistent st) := by
  unfold consistent
  cases st.fs.active with
  | none => exact decidable_of_iff (st.lg.fdOpen = true → False) (by simp)
  | some d =>
      exact decidable_of_iff (st.lg.fdOpen = true → d.length = st.lg.size)
        (by constructor
            · intro h hf
              exact ⟨d, rfl, h hf⟩
            · rintro h hf
              obtain ⟨e, he, hl⟩ := h hf
              cases he
              exact hl)

/-! ### Concrete states used by witnesses and counterexamples

`lgC` has `MaxSize = 1`, so its policy maximum is `1048576` bytes. -/

/-- A fresh logger over `/var/log/app.log` with a 1 MB policy. -/
def lgC : Logger :=
  { Filename := "/var/log/app.log", MaxSize := 1, size := 0, fdOpen := false }

/-- Fresh writer, no file on disk. -/
def stEmpty : St := { lg := lgC, fs := { active := none, archives := [] } }

/-- Writer holding an open 2-byte file. -/
def stOpen : St :=
  { lg := { lgC with size := 2, fdOpen := true },
    fs := { active := some [5, 5], archives := [] } }

/-- Closed writer over an existing 3-byte file (seal scenarios). -/
def stSealed : St := { lg := lgC, fs := { active := some [1, 2, 3], archives := [] } }

/-- Fresh writer over an existing 5-byte file (resume scenario). -/
def stResume : St :=
  { lg := lgC, fs := { active := some [9, 9, 9, 9, 9], archives := [] } }

/-- Writer holding an open file already at the 1048576-byte policy
maximum (its 2 recorded bytes stand for the full content). -/
def stFull : St :=
  { lg := { lgC with size := 1048576, fdOpen := true },
    fs := { active := some [1, 2], archives := [] } }

/-- A rotation instant with nanosecond 9. -/
def tC : GoTime :=
  { year := 2026, month := 1, day := 2, hour := 3, minute := 4, second := 5, nano := 9 }

/-- The same second as `tC`, nanosecond 100 (so chronologically later). -/
def tC2 : GoTime := { tC with nano := 100 }

/-! ### Helper lemmas -/

theorem close_lg (st : St) (f : Faults) :
    (close st f).1.lg.Filename = st.lg.Filename ∧
    (close st f).1.lg.MaxSize = st.lg.MaxSize ∧
    (close st f).1.fs = st.fs := by
  unfold close
  split_ifs <;> simp

theorem composeFile_lg (st : St) (f : Faults) (t : GoTime) :
    (composeFile st f t).1.1.lg = st.lg := by
  unfold composeFile
  cases hact : st.fs.active <;> simp only [hact] <;> ((try split_ifs) <;> rfl)

theorem openNewFile_eq (st : St) (f : Faults)
    (h : (openNewFile st f).2 = false) :
    openNewFile st f =
      ({ lg := { st.lg with fdOpen := true, size := 0 },
         fs := { st.fs with active := some [] } }, false) := by
  unfold openNewFile at h ⊢
  split_ifs at h ⊢
  rfl

theorem makeNewFile_ok (st : St) (f : Faults) (t : GoTime)
    (h : (makeNewFile st f t).2 = false) :
    (makeNewFile st f t).1.lg.size = 0 ∧
    (makeNewFile st f t).1.lg.fdOpen = true ∧
    (makeNewFile st f t).1.fs.active = some [] ∧
    (makeNewFile st f t).1.lg.MaxSize = st.lg.MaxSize := by
  unfold makeNewFile at h ⊢
  by_cases e1 : (close st f).2
  · simp [e1] at h
  · simp only [e1, Bool.false_eq_true, if_false] at h ⊢
    by_cases e2 : (composeFile (close st f).1 f t).1.2
    · simp [e2] at h
    · simp only [e2, Bool.false_eq_true, if_false] at h ⊢
      rw [openNewFile_eq _ _ h]
      refine ⟨rfl, rfl, rfl, ?_⟩
      have h3 := composeFile_lg (close st f).1 f t
      have h4 := (close_lg st f).2.1
      simp [h3, h4]

theorem openFile_ok (st : St) (f : Faults) (t : GoTime) (curlen : Nat)
    (h : (openFile st f t curlen).2 = false) :
    (openFile st f t curlen).1.lg.fdOpen = true ∧
    (∃ d, (openFile st f t curlen).1.fs.active = some d ∧
      d.length = (openFile st f t curlen).1.lg.size) ∧
    (openFile st f t curlen).1.lg.MaxSize = st.lg.MaxSize := by
  unfold openFile at h ⊢
  rcases hact : st.fs.active with _ | d
  · simp only [hact] at h ⊢
    rw [openNewFile_eq _ _ h]
    simp
  · simp only [hact] at h ⊢
    split_ifs at h ⊢
    · obtain ⟨m1, m2, m3, m4⟩ := makeNewFile_ok st f t h
      exact ⟨m2, ⟨[], by simp [m3, m1]⟩, m4⟩
    · exact ⟨rfl, ⟨d, hact, rfl⟩, rfl⟩

theorem max_congr {l1 l2 : Logger} (h : l1.MaxSize = l2.MaxSize) :
    l1.max = l2.max := by
  simp [Logger.max, h]

theorem getBackupFileName_congr {l1 l2 : Logger} (t : GoTime)
    (h : l1.Filename = l2.Filename) :
    getBackupFileName l1 t = getBackupFileName l2 t := by
  simp [getBackupFileName, h]

theorem writeBody_ok (st1 : St) (f : Faults) (t : GoTime) (p : List Nat)
    (hcons : ∃ d, st1.fs.active = some d ∧ d.length = st1.lg.size)
    (hp : p.length ≤ st1.lg.max)
    (hs : (writeBody st1 f t p).err = false) :
    (writeBody st1 f t p).st.lg.size ≤ st1.lg.max ∧
    (∃ d, (writeBody st1 f t p).st.fs.active = some d ∧
      d.length = (writeBody st1 f t p).st.lg.size) ∧
    (writeBody st1 f t p).st.lg.MaxSize = st1.lg.MaxSize := by
  unfold writeBody at hs ⊢
  by_cases h2 : st1.lg.max < st1.lg.size + p.length
  · simp only [h2, if_true] at hs ⊢
    by_cases e2 : (makeNewFile st1 f t).2
    · simp [e2] at hs
    · simp only [e2, Bool.false_eq_true, if_false] at hs ⊢
      obtain ⟨m1, m2, m3, m4⟩ := makeNewFile_ok st1 f t (by simpa using e2)
      by_cases hw : f.writeF
      · simp [hw] at hs
      · simp only [hw, Bool.false_eq_true, if_false]
        refine ⟨?_, ⟨p, ?_, ?_⟩, by simpa using m4⟩
        · simpa [m1] using hp
        · simp [appendActive, m3]
        · simp [m1]
  · simp only [h2, if_false] at hs ⊢
    by_cases hw : f.writeF
    · simp [hw] at hs
    · simp only [hw, Bool.false_eq_true, if_false]
      obtain ⟨d, hd, hl⟩ := hcons
      refine ⟨?_, ⟨d ++ p, ?_, ?_⟩, ?_⟩
      · omega
      · simp [appendActive, hd]
      · simp [hl]
      · trivial

/-! ### Claim theorems -/

/-- C9: the effective policy maximum is `MaxSize * 1024 * 1024` bytes
when the configured `MaxSize` is non-zero, and `100 * 1024 * 1024`
bytes (100 MiB) when `MaxSize` is zero. -/
theorem max_default (l : Logger) :
    (l.MaxSize ≠ 0 → l.max = l.MaxSize * (1024 * 1024)) ∧
    (l.MaxSize = 0 → l.max = 100 * (1024 * 1024)) := by
  refine ⟨fun h => ?_, fun h => ?_⟩ <;>
    simp [Logger.max, h, defaultMaxSize, megabyte]

/-- Witness for C9 at `MaxSize = 1` and `MaxSize = 0`. -/
theorem max_default_witness :
    lgC.max = 1 * (1024 * 1024) ∧
      ({ lgC with MaxSize := 0 } : Logger).max = 100 * (1024 * 1024) :=
  ⟨(max_default lgC).1 (by decide), (max_default { lgC with MaxSize := 0 }).2 rfl⟩

/-- C2: a buffer longer than the policy maximum is rejected with count
0 and an error, leaving the writer and the file system untouched (in
particular no file is created when none existed). -/
theorem write_oversize_rejected (st : St) (f : Faults) (t : GoTime) (p : List Nat)
    (hp : st.lg.max < p.length) :
    Write st f t p = ⟨0, true, st⟩ := by
  simp [Write, hp]

/-- Witness for C2: a `1048577`-byte buffer against the 1 MB policy of
`stEmpty`; the state (with no file on disk) is returned unchanged. -/
theorem write_oversize_rejected_witness :
    Write stEmpty noFaults tC (List.replicate 1048577 0) = ⟨0, true, stEmpty⟩ :=
  write_oversize_rejected stEmpty noFaults tC (List.replicate 1048577 0)
    (by rw [List.length_replicate]; decide)

/-- C4: if opening or stat-ing the retiring file, creating the archive,
streaming the copy, or flushing the compressor trailer fails, the seal
returns an error and the original file at the logical path is intact. -/
theorem composeFile_error_preserves (st : St) (f : Faults) (t : GoTime)
    (h : f.srcOpenF = true ∨ f.srcStatF = true ∨ f.dstOpenF = true ∨
      f.copyF = true ∨ f.gzCloseF = true) :
    (composeFile st f t).1.2 = true ∧
      (composeFile st f t).1.1.fs.active = st.fs.active := by
  unfold composeFile
  cases hact : st.fs.active <;> simp only [hact] <;>
    first
    | simp
    | (split_ifs <;> simp_all)

/-- Witness for C4: a failing trailer flush over `stSealed` leaves the
3-byte original in place and surfaces the error. -/
theorem composeFile_error_preserves_witness :
    (composeFile stSealed { gzCloseF := true } tC).1.2 = true ∧
      (composeFile stSealed { gzCloseF := true } tC).1.1.fs.active =
        stSealed.fs.active :=
  composeFile_error_preserves stSealed { gzCloseF := true } tC
    (by simp)

/-- C5 (amended): in every successful seal the compressor trailer flush
(`gz.Close`) precedes the removal of the original, but the archive
file's close is deferred and therefore follows the removal. -/
theorem composeFile_trailer_before_remove (st : St) (f : Faults) (t : GoTime)
    (h : (composeFile st f t).1.2 = false) :
    (composeFile st f t).2.indexOf Ev.gzClose <
        (composeFile st f t).2.indexOf Ev.removeSrc ∧
      (composeFile st f t).2.indexOf Ev.removeSrc <
        (composeFile st f t).2.indexOf Ev.closeDst := by
  unfold composeFile at h ⊢
  cases hact : st.fs.active <;> simp only [hact] at h ⊢ <;>
    first
    | simp_all
    | (split_ifs at h ⊢ <;> simp_all <;> decide)

/-- Witness for C5's amended theorem at the concrete seal of `stSealed`. -/
theorem composeFile_trailer_before_remove_witness :
    (composeFile stSealed noFaults tC).2.indexOf Ev.gzClose <
        (composeFile stSealed noFaults tC).2.indexOf Ev.removeSrc ∧
      (composeFile stSealed noFaults tC).2.indexOf Ev.removeSrc <
        (composeFile stSealed noFaults tC).2.indexOf Ev.closeDst :=
  composeFile_trailer_before_remove stSealed noFaults tC (by decide)

/-- C5 counterexample: in this successful seal, the removal of the
original happens strictly before the archive file is closed (the
`defer gzf.Close()` runs at function exit), refuting the claim that the
archive-file close precedes the removal in every successful seal. -/
theorem composeFile_remove_before_close_counterexample :
    (composeFile stSealed noFaults tC).1.2 = false ∧
      (composeFile stSealed noFaults tC).2.indexOf Ev.removeSrc <
        (composeFile stSealed noFaults tC).2.indexOf Ev.closeDst := by
  decide

/-- C6: with no handle open, the write path resolves one: no file on
disk means a fresh empty file with size 0; an existing file whose stat
size plus the pending length reaches the policy maximum triggers a
rotation instead of being opened; otherwise the existing file is opened
for append and its stat size is adopted as the current size. -/
theorem openFile_resolution (st : St) (t : GoTime) (curlen : Nat)
    (hfd : st.lg.fdOpen = false) :
    (st.fs.active = none →
      openFile st noFaults t curlen =
        ({ lg := { st.lg with fdOpen := true, size := 0 },
           fs := { st.fs with active := some [] } }, false)) ∧
    (∀ d, st.fs.active = some d → st.lg.max ≤ d.length + curlen →
      openFile st noFaults t curlen =
        ({ lg := { st.lg with fdOpen := true, size := 0 },
           fs := { active := some [],
                   archives := (getBackupFileName st.lg t, d) :: st.fs.archives } },
         false)) ∧
    (∀ d, st.fs.active = some d → d.length + curlen < st.lg.max →
      openFile st noFaults t curlen =
        ({ lg := { st.lg with fdOpen := true, size := d.length },
           fs := st.fs }, false)) := by
  rcases st with ⟨⟨fn, ms, sz, fd⟩, ⟨act, ar⟩⟩
  simp only at hfd
  subst hfd
  refine ⟨?_, ?_, ?_⟩
  · intro hact
    simp only at hact
    subst hact
    simp [openFile, openNewFile, noFaults]
  · intro d hact hge
    simp only at hact
    subst hact
    simp only at hge
    simp [openFile, makeNewFile, close, composeFile, openNewFile, noFaults, hge,
      getBackupFileName]
  · intro d hact hlt
    simp only at hact
    subst hact
    simp [openFile, noFaults, Nat.not_le.mpr hlt]

/-- Witness for C6: the resume branch over `stResume` adopts the 5-byte
stat size. -/
theorem openFile_resolution_witness :
    openFile stResume noFaults tC 1 =
      ({ lg := { stResume.lg with fdOpen := true, size := 5 },
         fs := stResume.fs }, false) :=
  (openFile_resolution stResume tC 1 (by decide)).2.2 [9, 9, 9, 9, 9] (by decide)
    (by decide)

/-- C1: starting from a consistent state, any successful `Write` of a
buffer within the policy maximum leaves both the recorded size and the
active file's length at or below the policy maximum. -/
theorem write_size_invariant (st : St) (f : Faults) (t : GoTime) (p : List Nat)
    (hc : consistent st) (hp : p.length ≤ st.lg.max)
    (hs : (Write st f t p).err = false) :
    (Write st f t p).st.lg.size ≤ st.lg.max ∧
    ∀ d, (Write st f t p).st.fs.active = some d → d.length ≤ st.lg.max := by
  unfold Write at hs ⊢
  simp only [Nat.not_lt.mpr hp, if_false] at hs ⊢
  cases hfd : st.lg.fdOpen with
  | true =>
    simp only [hfd, if_true, Bool.false_eq_true, if_false] at hs ⊢
    obtain ⟨s1, ⟨d, hd, hl⟩, m1⟩ := writeBody_ok st f t p (hc hfd) hp hs
    refine ⟨s1, fun e he => ?_⟩
    rw [hd] at he
    cases he
    omega
  | false =>
    simp only [hfd, Bool.false_eq_true, if_false] at hs ⊢
    by_cases e1 : (openFile st f t p.length).2
    · simp [e1] at hs
    · simp only [e1, Bool.false_eq_true, if_false] at hs ⊢
      obtain ⟨o1, o2, o3⟩ := openFile_ok st f t p.length (by simpa using e1)
      have hmax : (openFile st f t p.length).1.lg.max = st.lg.max := max_congr o3
      obtain ⟨s1, ⟨d, hd, hl⟩, m1⟩ :=
        writeBody_ok (openFile st f t p.length).1 f t p o2 (by omega) hs
      refine ⟨by omega, fun e he => ?_⟩
      rw [hd] at he
      cases he
      omega

/-- Witness for C1 at the open, consistent state `stOpen`. -/
theorem write_size_invariant_witness :
    (Write stOpen noFaults tC [1, 2, 3]).st.lg.size ≤ stOpen.lg.max ∧
      ∀ d, (Write stOpen noFaults tC [1, 2, 3]).st.fs.active = some d →
        d.length ≤ stOpen.lg.max :=
  write_size_invariant stOpen noFaults tC [1, 2, 3] (by decide) (by decide)
    (by decide)

/-- C3: with a file already open, a fault-free `Write` of an in-policy
buffer succeeds, and it rotates (new archive of the old content, active
file holding only the new bytes) exactly when the current size plus the
buffer length strictly exceeds the policy maximum; otherwise the bytes
are appended with no rotation, so a write that lands exactly on the
maximum does not rotate. -/
theorem write_rotation_boundary (st : St) (t : GoTime) (p : List Nat) (d : List Nat)
    (hfd : st.lg.fdOpen = true) (ha : st.fs.active = some d)
    (hp : p.length ≤ st.lg.max) :
    (Write st noFaults t p).err = false ∧
    (st.lg.max < st.lg.size + p.length →
      (Write st noFaults t p).st.fs.archives =
        (getBackupFileName st.lg t, d) :: st.fs.archives ∧
      (Write st noFaults t p).st.fs.active = some p ∧
      (Write st noFaults t p).st.lg.size = p.length) ∧
    (st.lg.size + p.length ≤ st.lg.max →
      (Write st noFaults t p).st.fs.archives = st.fs.archives ∧
      (Write st noFaults t p).st.fs.active = some (d ++ p) ∧
      (Write st noFaults t p).st.lg.size = st.lg.size + p.length) := by
  by_cases h2 : st.lg.max < st.lg.size + p.length
  · refine ⟨?_, fun h3 => ⟨?_, ?_, ?_⟩, fun h3 => by omega⟩ <;>
      simp [Write, writeBody, makeNewFile, close, composeFile, openNewFile,
        noFaults, appendActive, getBackupFileName, hfd, ha, h2, Nat.not_lt.mpr hp]
  · refine ⟨?_, fun h3 => by omega, fun h3 => ⟨?_, ?_, ?_⟩⟩ <;>
      simp [Write, writeBody, noFaults, appendActive, hfd, ha, h2, Nat.not_lt.mpr hp]

/-- Witness for C3: `stFull` sits exactly at the policy maximum, so a
2-byte write rotates, archiving the old content. -/
theorem write_rotation_boundary_witness :
    (Write stFull noFaults tC [7, 8]).err = false ∧
      (Write stFull noFaults tC [7, 8]).st.fs.archives =
        (getBackupFileName stFull.lg tC, [1, 2]) :: stFull.fs.archives ∧
      (Write stFull noFaults tC [7, 8]).st.fs.active = some [7, 8] ∧
      (Write stFull noFaults tC [7, 8]).st.lg.size = 2 := by
  have h := write_rotation_boundary stFull tC [7, 8] [1, 2] (by decide) (by decide)
    (by decide)
  exact ⟨h.1, h.2.1 (by decide)⟩

theorem writeBody_fd_error (st1 : St) (f : Faults) (t : GoTime) (p : List Nat)
    (hw : f.writeF = true) :
    (writeBody st1 f t p).n = 0 ∧ (writeBody st1 f t p).err = true ∧
      (st1.lg.size + p.length ≤ st1.lg.max →
        writeBody st1 f t p = ⟨0, true, st1⟩) := by
  unfold writeBody
  by_cases h2 : st1.lg.max < st1.lg.size + p.length
  · simp only [h2, if_true]
    by_cases e2 : (makeNewFile st1 f t).2 <;> simp [e2, hw] <;> omega
  · simp [h2, hw]

/-- C8: when the underlying append fails, `Write` returns count 0 and
an error; when the handle was open and no rotation was due, the writer
state (in particular `size`) is completely unchanged. -/
theorem write_fd_error (st : St) (f : Faults) (t : GoTime) (p : List Nat)
    (hw : f.writeF = true) :
    (Write st f t p).n = 0 ∧ (Write st f t p).err = true ∧
      (st.lg.fdOpen = true → st.lg.size + p.length ≤ st.lg.max →
        Write st f t p = ⟨0, true, st⟩) := by
  unfold Write
  by_cases h1 : st.lg.max < p.length
  · simp [h1]
  · simp only [h1, if_false]
    cases hfd : st.lg.fdOpen with
    | true =>
      simp only [hfd, if_true, Bool.false_eq_true, if_false]
      obtain ⟨a1, a2, a3⟩ := writeBody_fd_error st f t p hw
      exact ⟨a1, a2, fun _ => a3⟩
    | false =>
      simp only [hfd, Bool.false_eq_true, if_false]
      refine ⟨?_, ?_, fun hh => absurd hh (by simp [hfd])⟩ <;>
        by_cases e1 : (openFile st f t p.length).2 <;>
          simp [e1, (writeBody_fd_error (openFile st f t p.length).1 f t p hw).1,
            (writeBody_fd_error (openFile st f t p.length).1 f t p hw).2.1]

/-- Witness for C8 at `stOpen` with only the append call failing. -/
theorem write_fd_error_witness :
    (Write stOpen { writeF := true } tC [4]).n = 0 ∧
      (Write stOpen { writeF := true } tC [4]).err = true ∧
      Write stOpen { writeF := true } tC [4] = ⟨0, true, stOpen⟩ := by
  have h := write_fd_error stOpen { writeF := true } tC [4] rfl
  exact ⟨h.1, h.2.1, h.2.2 rfl (by decide)⟩

theorem writeBody_success_count (st1 : St) (f : Faults) (t : GoTime) (p : List Nat)
    (hs : (writeBody st1 f t p).err = false) :
    (writeBody st1 f t p).n = p.length ∧
      (st1.lg.size + p.length ≤ st1.lg.max →
        (writeBody st1 f t p).st.lg.size = st1.lg.size + p.length) := by
  unfold writeBody at hs ⊢
  by_cases h2 : st1.lg.max < st1.lg.size + p.length
  · simp only [h2, if_true] at hs ⊢
    by_cases e2 : (makeNewFile st1 f t).2
    · simp [e2] at hs
    · by_cases hww : f.writeF
      · simp [e2, hww] at hs
      · simp [e2, hww]
        omega
  · simp only [h2, if_false] at hs ⊢
    by_cases hww : f.writeF
    · simp [hww] at hs
    · simp [hww]

/-- C10 (amended): a successful `Write` always returns exactly the
buffer's length, and when a handle was already open and no rotation was
due the recorded size grows by exactly that length.  (When the call
resolves a handle or rotates first, the final size is the resolved
baseline plus the buffer length instead.) -/
theorem write_success_count (st : St) (f : Faults) (t : GoTime) (p : List Nat)
    (hs : (Write st f t p).err = false) :
    (Write st f t p).n = p.length ∧
      (st.lg.fdOpen = true → st.lg.size + p.length ≤ st.lg.max →
        (Write st f t p).st.lg.size = st.lg.size + p.length) := by
  unfold Write at hs ⊢
  by_cases h1 : st.lg.max < p.length
  · simp [h1] at hs
  · simp only [h1, if_false] at hs ⊢
    cases hfd : st.lg.fdOpen with
    | true =>
      simp only [hfd, if_true, Bool.false_eq_true, if_false] at hs ⊢
      obtain ⟨c1, c2⟩ := writeBody_success_count st f t p hs
      exact ⟨c1, fun _ => c2⟩
    | false =>
      simp only [hfd, Bool.false_eq_true, if_false] at hs ⊢
      by_cases e1 : (openFile st f t p.length).2
      · simp [e1] at hs
      · simp only [e1, Bool.false_eq_true, if_false] at hs ⊢
        obtain ⟨c1, c2⟩ :=
          writeBody_success_count (openFile st f t p.length).1 f t p hs
        exact ⟨c1, fun hh => absurd hh (by simp [hfd])⟩

/-- Witness for C10's amended theorem at the open state `stOpen`. -/
theorem write_success_count_witness :
    (Write stOpen noFaults tC [1, 2]).n = 2 ∧
      (Write stOpen noFaults tC [1, 2]).st.lg.size = 4 := by
  have h := write_success_count stOpen noFaults tC [1, 2] (by decide)
  exact ⟨h.1, by simpa using h.2 rfl (by decide)⟩

/-- C10 counterexample: resuming an existing 5-byte file, a successful
1-byte write returns count 1 but moves `size` from 0 to 6 — the size
does not increase by exactly `len(p)` measured across the call. -/
theorem write_size_delta_counterexample :
    (Write stResume noFaults tC [1]).err = false ∧
      (Write stResume noFaults tC [1]).n = 1 ∧
      (Write stResume noFaults tC [1]).st.lg.size ≠ stResume.lg.size + 1 := by
  decide

/-! ### Archive-name lemmas (C7) -/

theorem digitChar_lt_val : ∀ x < 10, (digitChar x).toNat - 48 = x := by
  decide

theorem digitChar_mod (a : Nat) : digitChar (a % 10) = digitChar a := by
  unfold digitChar
  rw [Nat.mod_mod_of_dvd _ (dvd_refl 10)]

theorem digitChar_val (a : Nat) : (digitChar a).toNat - 48 = a % 10 := by
  rw [← digitChar_mod]
  exact digitChar_lt_val (a % 10) (Nat.mod_lt _ (by omega))

theorem digitChar_inj_lt : ∀ x < 10, ∀ y < 10, digitChar x = digitChar y → x = y := by
  decide

theorem digitChar_inj (a b : Nat) (h : digitChar a = digitChar b) :
    a % 10 = b % 10 := by
  refine digitChar_inj_lt (a % 10) (Nat.mod_lt _ (by omega)) (b % 10)
    (Nat.mod_lt _ (by omega)) ?_
  rw [digitChar_mod, digitChar_mod]
  exact h

theorem decVal_append_digit (l : List Char) (c : Char) :
    decVal (l ++ [c]) = decVal l * 10 + (c.toNat - 48) := by
  simp [decVal, List.foldl_append]

theorem decVal_decDigitsAux : ∀ fuel n, n < fuel →
    decVal (decDigitsAux fuel n) = n := by
  intro fuel
  induction fuel with
  | zero => omega
  | succ fuel ih =>
    intro n hn
    unfold decDigitsAux
    by_cases h : n < 10
    · simp only [h, if_true]
      have := digitChar_val n
      simp [decVal]
      omega
    · simp only [h, if_false]
      rw [decVal_append_digit, ih (n / 10) (by omega), digitChar_val]
      omega

theorem decDigits_inj {a b : Nat} (h : decDigits a = decDigits b) : a = b := by
  have ha := decVal_decDigitsAux (a + 1) a (by omega)
  have hb := decVal_decDigitsAux (b + 1) b (by omega)
  unfold decDigits at h
  rw [← ha, ← hb, h]

theorem fmtTimeL_length (t : GoTime) : (fmtTimeL t).length = 19 := by
  simp [fmtTimeL, pad4, pad2]

theorem fmtTimeL_inj {t1 t2 : GoTime} (h1 : t1.Valid) (h2 : t2.Valid)
    (h : fmtTimeL t1 = fmtTimeL t2) :
    t1.year = t2.year ∧ t1.month = t2.month ∧ t1.day = t2.day ∧
      t1.hour = t2.hour ∧ t1.minute = t2.minute ∧ t1.second = t2.second := by
  obtain ⟨v1y, v1mo, v1d, v1h, v1mi, v1s⟩ := h1
  obtain ⟨v2y, v2mo, v2d, v2h, v2mi, v2s⟩ := h2
  simp only [fmtTimeL, pad4, pad2, List.cons_append, List.nil_append,
    List.cons.injEq, and_true] at h
  obtain ⟨a1, a2, a3, a4, -, b1, b2, -, c1, c2, -, d1, d2, -, e1, e2, -, f1, f2⟩ := h
  have := digitChar_inj _ _ a1
  have := digitChar_inj _ _ a2
  have := digitChar_inj _ _ a3
  have := digitChar_inj _ _ a4
  have := digitChar_inj _ _ b1
  have := digitChar_inj _ _ b2
  have := digitChar_inj _ _ c1
  have := digitChar_inj _ _ c2
  have := digitChar_inj _ _ d1
  have := digitChar_inj _ _ d2
  have := digitChar_inj _ _ e1
  have := digitChar_inj _ _ e2
  have := digitChar_inj _ _ f1
  have := digitChar_inj _ _ f2
  refine ⟨?_, ?_, ?_, ?_, ?_, ?_⟩ <;> omega

theorem name_data (l : Logger) (t : GoTime) :
    (getBackupFileName l t).data =
      (dirOf l.Filename).data ++ '/' ::
        (fmtTimeL t ++ '-' :: (decDigits t.nano ++ '-' ::
          ((baseOf l.Filename).data ++ ['.', 'g', 'z']))) := by
  simp [getBackupFileName, String.data_append, gzExt]

/-- C7 (amended): every archive name is
`<dir>/<YYYY-MM-DD-HH-MM-SS>-<nanoseconds>-<base>.gz`, and any two
rotations at distinct valid instants produce distinct names; however
(see the counterexample) the names do not sort lexicographically by
rotation time, because the nanosecond field is not zero-padded. -/
theorem getBackupFileName_distinct (l : Logger) (t1 t2 : GoTime)
    (h1 : t1.Valid) (h2 : t2.Valid) (hne : t1 ≠ t2) :
    getBackupFileName l t1 ≠ getBackupFileName l t2 := by
  intro h
  apply hne
  have hd := congrArg String.data h
  rw [name_data, name_data] at hd
  have hd2 := List.append_cancel_left hd
  simp only [List.cons.injEq, true_and] at hd2
  obtain ⟨hfmt, hrest⟩ :=
    List.append_inj hd2 (by rw [fmtTimeL_length, fmtTimeL_length])
  simp only [List.cons.injEq, true_and] at hrest
  have hnano : decDigits t1.nano = decDigits t2.nano :=
    List.append_cancel_right hrest
  have hn := decDigits_inj hnano
  obtain ⟨ey, emo, ed, eh, emi, es⟩ := fmtTimeL_inj h1 h2 hfmt
  cases t1
  cases t2
  simp_all

/-- Witness for C7's amended theorem: two rotations in the same second
(nanoseconds 9 and 100) produce distinct names. -/
theorem getBackupFileName_distinct_witness :
    getBackupFileName lgC tC ≠ getBackupFileName lgC tC2 :=
  getBackupFileName_distinct lgC tC tC2 (by decide) (by decide) (by decide)

/-- C7 counterexample: `tC` (nanosecond 9) is chronologically before
`tC2` (nanosecond 100) in the same second, yet the later rotation's
archive name sorts lexicographically *before* the earlier one's
(`"...-100-..." < "...-9-..."`), refuting the claim that archive names
sort lexicographically by rotation time. -/
theorem backup_not_lex_counterexample :
    GoTime.before tC tC2 = true ∧ tC.Valid ∧ tC2.Valid ∧
      (getBackupFileName lgC tC2).data < (getBackupFileName lgC tC).data := by
  decide

end RollingLogger
